import Mathlib

/-!
Shallow embedding of the `kb_agent` VS Code chat extension (`src/kb.ts`):
a command dispatcher that routes `@kb_agent ` prompts to Confluence
operations (`/auth`, `/page`, `/update`), falling back to a plain chat
conversation for non-command prompts.

Host primitives (`JSON.parse`, `fetch`, `globalState`) are modelled as an
explicit environment; the module-level mutable credential is threaded as
explicit state.  The module-level variable `confluenceAuth` and the
`globalState` copy are always kept in sync by the source (`saveAuth`
writes both, activation loads one into the other), so they are modelled
as a single `Option ConfluenceAuth` value.
-/

namespace KB

/-- JavaScript whitespace predicate used by `String.prototype.trim`
(space, tab, LF, CR, VT, FF, NBSP, BOM — the code points exercised by
this program are all ASCII). -/
def isWS (c : Char) : Bool :=
  c == ' ' || c == '\t' || c == '\n' || c == '\r' ||
    c.toNat == 11 || c.toNat == 12 || c.toNat == 160 || c.toNat == 65279

/-- Drop leading JS whitespace. -/
def trimLeft (l : List Char) : List Char := l.dropWhile isWS

/-- Drop trailing JS whitespace. -/
def trimRight (l : List Char) : List Char := (l.reverse.dropWhile isWS).reverse

/-- `String.prototype.trim` on the character list. -/
def trim (l : List Char) : List Char := trimRight (trimLeft l)

/-- `String.prototype.trim` at the string level. -/
def jsTrim (s : String) : String := ⟨trim s.data⟩

/-- `String.prototype.startsWith` on character lists. -/
def startsWithL : List Char → List Char → Bool
  | _, [] => true
  | [], _ :: _ => false
  | c :: cs, p :: ps => c == p && startsWithL cs ps

/-- `String.prototype.startsWith` at the string level. -/
def jsStartsWith (s pat : String) : Bool := startsWithL s.data pat.data

/-- `String.prototype.split(sep)` for a single-character separator
(JS split with a one-character string separator). -/
def splitOnCharL (sep : Char) : List Char → List (List Char)
  | [] => [[]]
  | c :: cs =>
    if c == sep then [] :: splitOnCharL sep cs
    else
      match splitOnCharL sep cs with
      | [] => [[c]]
      | g :: gs => (c :: g) :: gs

/-- `String.prototype.split` at the string level. -/
def jsSplit (s : String) (sep : Char) : List String :=
  (splitOnCharL sep s.data).map fun l => ⟨l⟩

/-- `String.prototype.replace(pat, repl)` with a string pattern: replaces
only the first occurrence (JS semantics). -/
def replaceFirstL (pat repl : List Char) : List Char → List Char
  | [] => if pat.isEmpty then repl else []
  | c :: cs =>
    if pat.isPrefixOf (c :: cs) then repl ++ (c :: cs).drop pat.length
    else c :: replaceFirstL pat repl cs

/-- `String.prototype.replace` (first occurrence) at the string level. -/
def replaceFirst (s pat repl : String) : String :=
  ⟨replaceFirstL pat.data repl.data s.data⟩

/-- Substring containment (used only to state that a failure message
contains a status code). -/
def containsSub : List Char → List Char → Bool
  | [], pat => pat.isEmpty
  | c :: cs, pat => pat.isPrefixOf (c :: cs) || containsSub cs pat

/-- Substring containment at the string level. -/
def strContains (s pat : String) : Bool := containsSub s.data pat.data

/-- `String(x).replace(/\/$/, '')` — removes a single trailing slash if
present (the regex `/\/$/` matches only the final character). -/
def stripTrailingSlash (s : String) : String :=
  if s.data.getLast? = some '/' then ⟨s.data.dropLast⟩ else s

/-- The regex match `raw.trim().match(/^\[([^\]]+)\]\([^\)]*\)$/)` from
`normalizePrompt` (src/kb.ts line 30): the whole string must be
`[label](target)` with a non-empty label containing no `]` and a target
containing no `)`; returns capture group 1 (the label).  Because the two
character classes exclude the very characters that close them, the
greedy runs admit no backtracking, so `takeWhile`/`dropWhile` are exact. -/
def linkMatch : List Char → Option (List Char)
  | '[' :: rest =>
    if (rest.takeWhile (· != ']')).isEmpty then none
    else
      match rest.dropWhile (· != ']') with
      | ']' :: '(' :: rest3 =>
        match rest3.dropWhile (· != ')') with
        | [')'] => some (rest.takeWhile (· != ']'))
        | _ => none
      | _ => none
  | _ => none

/-- `normalizePrompt` (src/kb.ts lines 28–35): trim the input; if the
trimmed text is exactly one markdown link, return the trimmed label,
otherwise the trimmed input.  (`input ?? ''` is subsumed by totality on
`String`.) -/
def normalizePrompt (input : String) : String :=
  match linkMatch (trim input.data) with
  | some label => ⟨trim label⟩
  | none => ⟨trim input.data⟩

/-- JavaScript values produced by `JSON.parse` (plus `null`).  Numbers
are modelled as integers: every numeric value this program manipulates
(page version numbers) is integral. -/
inductive JsValue where
  | str (s : String)
  | num (n : Int)
  | bool (b : Bool)
  | null
  | obj (fields : List (String × JsValue))
  | arr (elems : List JsValue)

/-- Property read `v[k]` returning `none` for a missing property
(JS `undefined`); non-objects have no own properties of interest here.
For duplicate keys the later binding wins, as in `JSON.parse`. -/
def jsGet : JsValue → String → Option JsValue
  | .obj fs, k => (fs.reverse.find? fun kv => kv.1 == k).map (·.2)
  | _, _ => none

/-- Property read `v[k]` as the code performs it: reading a property of
`null` throws a `TypeError` (modelled as `.error ()`), otherwise behaves
like `jsGet`. -/
def jsGetF (v : JsValue) (k : String) : Except Unit (Option JsValue) :=
  match v with
  | .null => .error ()
  | v => .ok (jsGet v k)

/-- JS truthiness of a possibly-undefined value, as tested by
`!data.token` etc.: `undefined`, `null`, `false`, `0` and `""` are
falsy. -/
def truthy : Option JsValue → Bool
  | none => false
  | some .null => false
  | some (.bool b) => b
  | some (.num n) => n != 0
  | some (.str s) => s != ""
  | some (.obj _) => true
  | some (.arr _) => true

/-- JS `String(v)` coercion.  Arrays stringify by joining their elements
with `,` where nested `null` renders as the empty string. -/
def jsToString : JsValue → String
  | .str s => s
  | .num n => toString n
  | .bool b => if b then "true" else "false"
  | .null => "null"
  | .obj _ => "[object Object]"
  | .arr xs => String.intercalate "," (xs.attach.map fun v =>
      match v with
      | ⟨.null, _⟩ => ""
      | ⟨v', _⟩ => jsToString v')

/-- JS `String(v)` where `v` may be `undefined`. -/
def jsToStringO : Option JsValue → String
  | none => "undefined"
  | some v => jsToString v

/-- Hexadecimal digit (lower case), for JSON control-character escapes. -/
def hexDigit (n : Nat) : Char := "0123456789abcdef".data.getD n '0'

/-- Four-digit hexadecimal rendering of a code point below 0x10000. -/
def hex4 (n : Nat) : String :=
  ⟨[hexDigit (n / 4096 % 16), hexDigit (n / 256 % 16),
    hexDigit (n / 16 % 16), hexDigit (n % 16)]⟩

/-- `JSON.stringify` escaping for one character inside a string. -/
def escapeJsonChar (c : Char) : String :=
  if c == '"' then "\\\""
  else if c == '\\' then "\\\\"
  else if c == '\n' then "\\n"
  else if c == '\r' then "\\r"
  else if c == '\t' then "\\t"
  else if c.toNat == 8 then "\\b"
  else if c.toNat == 12 then "\\f"
  else if c.toNat < 32 then "\\u" ++ hex4 c.toNat
  else ⟨[c]⟩

/-- `JSON.stringify` (no replacer, no indentation).  Braces are written
with their code-point escapes. -/
def jsonStringify : JsValue → String
  | .str s => "\"" ++ String.join (s.data.map escapeJsonChar) ++ "\""
  | .num n => toString n
  | .bool b => if b then "true" else "false"
  | .null => "null"
  | .arr xs => "[" ++ String.intercalate "," (xs.attach.map fun v =>
      jsonStringify v.1) ++ "]"
  | .obj fs => "\x7b" ++ String.intercalate "," (fs.attach.map fun kv =>
      "\"" ++ String.join (kv.1.1.data.map escapeJsonChar) ++ "\":" ++
        jsonStringify kv.1.2) ++ "\x7d"
termination_by v => sizeOf v
decreasing_by
  all_goals simp_wf
  · have h := List.sizeOf_lt_of_mem v.2
    omega
  · obtain ⟨⟨k, jv⟩, hmem⟩ := kv
    have h := List.sizeOf_lt_of_mem hmem
    simp only [Prod.mk.sizeOf_spec] at h
    simp only []
    omega

/-- The body handed to `fetch`: `makeConfluenceRequest` stringifies the
body when it is a structured value (`typeof merged.body === 'object'`);
a string body would be passed through unchanged. -/
def serializeBody : JsValue → String
  | .str s => s
  | v => jsonStringify v

/-- UTF-8 encoding of one character (what `Buffer.from(string)` uses). -/
def utf8Bytes (c : Char) : List Nat :=
  let n := c.toNat
  if n < 128 then [n]
  else if n < 2048 then [192 + n / 64, 128 + n % 64]
  else if n < 65536 then [224 + n / 4096, 128 + n / 64 % 64, 128 + n % 64]
  else [240 + n / 262144, 128 + n / 4096 % 64, 128 + n / 64 % 64, 128 + n % 64]

/-- UTF-8 bytes of a string. -/
def strBytes (s : String) : List Nat :=
  s.data.foldr (fun c acc => utf8Bytes c ++ acc) []

/-- The base64 alphabet. -/
def b64c (n : Nat) : Char :=
  "ABCDEFGHIJKLMNOPQRSTUVWXYZabcdefghijklmnopqrstuvwxyz0123456789+/".data.getD n '='

/-- Base64 of a byte list, three bytes at a time with `=` padding
(`Buffer.prototype.toString('base64')`). -/
def base64Go : List Nat → List Char
  | [] => []
  | [b1] => [b64c (b1 / 4), b64c (b1 % 4 * 16), '=', '=']
  | [b1, b2] => [b64c (b1 / 4), b64c (b1 % 4 * 16 + b2 / 16), b64c (b2 % 16 * 4), '=']
  | b1 :: b2 :: b3 :: rest =>
    b64c (b1 / 4) :: b64c (b1 % 4 * 16 + b2 / 16) ::
      b64c (b2 % 16 * 4 + b3 / 64) :: b64c (b3 % 64) :: base64Go rest

/-- `Buffer.from(s).toString('base64')`. -/
def base64Encode (s : String) : String := ⟨base64Go (strBytes s)⟩

/-- The stored credential set (`ConfluenceAuth`, src/kb.ts lines 3–7). -/
structure ConfluenceAuth where
  token : String
  url : String
  email : String
deriving DecidableEq, Repr

/-- The `RequestInit` options accepted by `makeConfluenceRequest`:
the fields the code touches (`method`, `headers`, `body`), each `none`
when the caller's options object has no such own property. -/
structure RequestInit where
  method : Option String
  headers : Option (List (String × String))
  body : Option JsValue

/-- The empty options object `{}`. -/
def emptyInit : RequestInit := ⟨none, none, none⟩

/-- An HTTP request as handed to `fetch` (body already serialized). -/
structure HttpRequest where
  url : String
  method : Option String
  headers : List (String × String)
  body : Option String
deriving DecidableEq, Repr

/-- What `fetch` yields for a request: either a settled response (with
the outcome of a subsequent `response.json()` call) or a network-level
rejection. -/
inductive NetResult where
  | response (ok : Bool) (status : Nat) (statusText : String)
      (jsonBody : Except String JsValue)
  | networkError (msg : String)

/-- Host environment: `JSON.parse` (`none` models a parse exception) and
the network. -/
structure Env where
  jsonParse : String → Option JsValue
  net : HttpRequest → NetResult

/-- JS object spread `{...base, ...extra}` on string-keyed records:
every key of `extra` overrides the same key of `base`; other keys of
`base` are kept. -/
def objMerge (base extra : List (String × String)) : List (String × String) :=
  (base.filter fun kv => extra.all fun kv2 => kv2.1 != kv.1) ++ extra

/-- The default header object built by `makeConfluenceRequest`
(src/kb.ts lines 53–57). -/
def defaultHeaders (a : ConfluenceAuth) : List (String × String) :=
  [("Authorization", "Basic " ++ base64Encode (a.email ++ ":" ++ a.token)),
   ("Content-Type", "application/json"),
   ("Accept", "application/json")]

/-- The headers of the merged `RequestInit` (src/kb.ts lines 52–60):
`{ headers: {defaults, ...(options.headers || {})}, ...options }`.
The trailing `...options` spread comes after the `headers:` property,
so when the caller's options carry their own `headers` key it overwrites
the merged header object wholesale; the inner merge survives only when
the caller supplied no headers. -/
def requestHeaders (a : ConfluenceAuth) (options : RequestInit) :
    List (String × String) :=
  let merged := objMerge (defaultHeaders a)
    (match options.headers with | some h => h | none => [])
  match options.headers with
  | some h => h
  | none => merged

/-- The `fetch` call built by `makeConfluenceRequest`: URL is the stored
base URL plus the fixed API root plus the endpoint; body is stringified
when structured. -/
def buildRequest (a : ConfluenceAuth) (endpoint : String)
    (options : RequestInit) : HttpRequest :=
  { url := a.url ++ "/wiki/rest/api" ++ endpoint
    method := options.method
    headers := requestHeaders a options
    body := options.body.map serializeBody }

/-- `makeConfluenceRequest` (src/kb.ts lines 48–67).  Throws (returns
`.error`) when no credential is stored, on network failure, on a
non-`ok` status (`HTTP ${status}: ${statusText}`, without looking at
the response body), or when `response.json()` fails; otherwise returns
the parsed JSON body.  Also returns the list of `fetch` calls issued. -/
def makeConfluenceRequest (env : Env) (confluenceAuth : Option ConfluenceAuth)
    (endpoint : String) (options : RequestInit) :
    Except String JsValue × List HttpRequest :=
  match confluenceAuth with
  | none => (.error "Not authenticated. Please run @kb_agent /auth first.", [])
  | some a =>
    let req := buildRequest a endpoint options
    match env.net req with
    | .networkError msg => (.error msg, [req])
    | .response ok status statusText jsonBody =>
      if ok then (jsonBody, [req])
      else (.error ("HTTP " ++ toString status ++ ": " ++ statusText), [req])

/-- A fetched Confluence page, as the code's `ConfluencePageContent`
interface declares it (src/kb.ts lines 14–21). -/
structure PageContent where
  id : String
  title : String
  versionNumber : Int
  spaceKey : String
  bodyValue : String
  webui : String
deriving DecidableEq, Repr

/-- Reading the fields of a fetched page response.  The code casts the
parsed JSON to `ConfluencePageContent` without validation; `none` models
the dynamic `TypeError` raised when a dereferenced field is missing or
of the wrong shape. -/
def readPage (v : JsValue) : Option PageContent := do
  let id ← match jsGet v "id" with | some (.str s) => some s | _ => none
  let title ← match jsGet v "title" with | some (.str s) => some s | _ => none
  let verObj ← jsGet v "version"
  let vn ← match jsGet verObj "number" with | some (.num n) => some n | _ => none
  let spObj ← jsGet v "space"
  let spaceKey ← match jsGet spObj "key" with | some (.str s) => some s | _ => none
  let bodyObj ← jsGet v "body"
  let storObj ← jsGet bodyObj "storage"
  let bodyValue ← match jsGet storObj "value" with | some (.str s) => some s | _ => none
  let linksObj ← jsGet v "_links"
  let webui ← match jsGet linksObj "webui" with | some (.str s) => some s | _ => none
  some ⟨id, title, vn, spaceKey, bodyValue, webui⟩

/-- The message of the `TypeError` thrown when a page response lacks the
dereferenced fields (the host runtime's wording; only its existence
matters to this development). -/
def malformedPageMsg : String := "Cannot read properties of undefined"

/-- The `PUT` payload built by the `/update` branch
(src/kb.ts lines 194–206). -/
def updatePayload (pageId : String) (page : PageContent)
    (newContent : String) : JsValue :=
  .obj [("id", .str pageId),
        ("type", .str "page"),
        ("title", .str page.title),
        ("space", .obj [("key", .str page.spaceKey)]),
        ("body", .obj [("storage", .obj [("value", .str newContent),
                                          ("representation", .str "storage")])]),
        ("version", .obj [("number", .num (page.versionNumber + 1))])]

/-- What one handler invocation streams back: a single markdown payload,
or full delegation to the conversational fallback (whose own output is
out of scope). -/
inductive Outcome where
  | markdown (s : String)
  | conversation
deriving DecidableEq, Repr

/-- Result of one handler invocation: the response, the credential state
afterwards, and the `fetch` calls issued. -/
structure HandlerOut where
  outcome : Outcome
  auth : Option ConfluenceAuth
  requests : List HttpRequest
deriving DecidableEq, Repr

/-- The `/auth` branch (src/kb.ts lines 104–124).  `jsonText` is the
remainder after `/auth`.  `JSON.parse` failure and the `TypeError` from
reading a property of a parsed `null` are both caught by the outer
`catch`.  On all three fields truthy, the candidate is built with
`String(...)` coercions and the url slash-stripped; then the probe
`makeConfluenceRequest('/space')` runs with the *stored* module-level
credential, and only on its success is the candidate saved. -/
def authBranch (env : Env) (confluenceAuth : Option ConfluenceAuth)
    (jsonText : String) : HandlerOut :=
  match env.jsonParse jsonText with
  | none => ⟨.markdown "❌ Invalid JSON for authentication.", confluenceAuth, []⟩
  | some data =>
    match jsGetF data "token", jsGetF data "url", jsGetF data "email" with
    | .ok tokenV, .ok urlV, .ok emailV =>
      if !truthy tokenV || !truthy urlV || !truthy emailV then
        ⟨.markdown "❌ Missing fields: token, url, email.", confluenceAuth, []⟩
      else
        let strippedUrl := stripTrailingSlash (jsToStringO urlV)
        let auth : ConfluenceAuth :=
          ⟨jsToStringO tokenV, strippedUrl, jsToStringO emailV⟩
        match makeConfluenceRequest env confluenceAuth "/space" emptyInit with
        | (.ok _, reqs) =>
          ⟨.markdown "✅ **Authenticated!** You can now use `/pages`, `/page`, `/update`, `/create`.",
            some auth, reqs⟩
        | (.error msg, reqs) =>
          ⟨.markdown ("❌ Auth failed: " ++ msg), confluenceAuth, reqs⟩
    | _, _, _ => ⟨.markdown "❌ Invalid JSON for authentication.", confluenceAuth, []⟩

/-- The `/page` branch (src/kb.ts lines 160–178), reached whenever the
remainder merely *starts with* `/page`.  Splits on single spaces and
drops empty tokens. -/
def pageBranch (env : Env) (a : ConfluenceAuth) (rest : String) : HandlerOut :=
  let parts := (jsSplit rest ' ').filter fun p => p != ""
  if parts.length < 2 then
    ⟨.markdown "❌ Usage: `/page <pageId>`", some a, []⟩
  else
    let pageId := parts.getD 1 ""
    match makeConfluenceRequest env (some a)
        ("/content/" ++ pageId ++ "?expand=body.storage,version,space") emptyInit with
    | (.ok json, reqs) =>
      match readPage json with
      | some page =>
        ⟨.markdown ("### 📄 Page: " ++ page.title ++ "\n" ++
            "- ID: " ++ page.id ++ "\n" ++
            "- Space: " ++ page.spaceKey ++ "\n" ++
            "- Version: " ++ toString page.versionNumber ++ "\n" ++
            "- URL: " ++ a.url ++ "/wiki" ++ page.webui ++ "\n\n" ++
            "**Content:**\n\n" ++ page.bodyValue),
          some a, reqs⟩
      | none =>
        ⟨.markdown ("❌ Failed to fetch page: " ++ malformedPageMsg), some a, reqs⟩
    | (.error e, reqs) =>
      ⟨.markdown ("❌ Failed to fetch page: " ++ e), some a, reqs⟩

/-- The `/update` branch (src/kb.ts lines 181–212), reached whenever the
remainder starts with `/update`.  Argument parsing is by the index of
the first space (the slice keeps the space, the subsequent `trim` drops
it), then the index of the next space inside the trimmed remainder. -/
def updateBranch (env : Env) (a : ConfluenceAuth) (rest : String) : HandlerOut :=
  match rest.data.findIdx? (· == ' ') with
  | none => ⟨.markdown "❌ Usage: `/update <pageId> <message to append>`", some a, []⟩
  | some i =>
    let afterCmd := trim (rest.data.drop i)
    match afterCmd.findIdx? (· == ' ') with
    | none => ⟨.markdown "❌ Missing message to append.", some a, []⟩
    | some j =>
      let pageId : String := ⟨trim (afterCmd.take j)⟩
      let messageToAppend : String := ⟨trim (afterCmd.drop j)⟩
      match makeConfluenceRequest env (some a)
          ("/content/" ++ pageId ++ "?expand=body.storage,version,space") emptyInit with
      | (.ok json, reqs1) =>
        match readPage json with
        | some page =>
          let newContent := page.bodyValue ++ "<p>" ++ messageToAppend ++ "</p>"
          let payload := updatePayload pageId page newContent
          match makeConfluenceRequest env (some a) ("/content/" ++ pageId)
              ⟨some "PUT", none, some payload⟩ with
          | (.ok _, reqs2) =>
            ⟨.markdown ("✅ Appended content to [" ++ page.title ++ "](" ++
                a.url ++ "/wiki" ++ page.webui ++ ")"), some a, reqs1 ++ reqs2⟩
          | (.error e, reqs2) =>
            ⟨.markdown ("❌ Failed to update page: " ++ e), some a, reqs1 ++ reqs2⟩
        | none =>
          ⟨.markdown ("❌ Failed to update page: " ++ malformedPageMsg), some a, reqs1⟩
      | (.error e, reqs1) =>
        ⟨.markdown ("❌ Failed to update page: " ++ e), some a, reqs1⟩

/-- Command dispatch on the remainder after the `@kb_agent ` prefix
(src/kb.ts lines 104–239): the `/auth` branch first, then the
authentication gate, then the `startsWith` chain `/page`, `/update`
(the `/pages` and `/create` handlers are commented out in the source),
and finally the unknown-command response. -/
def dispatch (env : Env) (confluenceAuth : Option ConfluenceAuth)
    (rest : String) : HandlerOut :=
  if jsStartsWith rest "/auth" then
    authBranch env confluenceAuth (jsTrim (replaceFirst rest "/auth" ""))
  else
    match confluenceAuth with
    | none => ⟨.markdown "❌ Not authenticated. Run `/auth` first.", none, []⟩
    | some a =>
      if jsStartsWith rest "/page" then pageBranch env a rest
      else if jsStartsWith rest "/update" then updateBranch env a rest
      else
        ⟨.markdown "❌ Unknown command. Use `/auth`, `/pages`, `/page <id>`, `/update <id> <text>`, or `/create`.",
          some a, []⟩

/-- The chat request handler (src/kb.ts lines 69–240): normalize the
prompt, test for the `@kb_agent ` prefix (non-commands delegate to the
conversational fallback), strip the 10-character prefix, trim, and
dispatch.  The initial re-read of `globalState` (lines 70–73) is the
identity here because the module variable and the stored copy are
modelled as one value. -/
def handler (env : Env) (confluenceAuth : Option ConfluenceAuth)
    (requestPrompt : String) : HandlerOut :=
  let prompt := normalizePrompt requestPrompt
  if jsStartsWith prompt "@kb_agent " then
    dispatch env confluenceAuth (jsTrim ⟨prompt.data.drop 10⟩)
  else
    ⟨.conversation, confluenceAuth, []⟩

/-! Helper lemmas about trimming and the markdown-link pattern. -/

lemma data_mk (l : List Char) : (String.mk l).data = l := rfl

lemma dropWhile_dropWhile (p : Char → Bool) (l : List Char) :
    (l.dropWhile p).dropWhile p = l.dropWhile p := by
  induction l with
  | nil => rfl
  | cons a t ih =>
    cases h : p a with
    | true => simp [List.dropWhile_cons, h, ih]
    | false => simp [List.dropWhile_cons, h]

lemma dropWhile_head_false {p : Char → Bool} {a : Char} {t : List Char}
    (h : (a :: t).dropWhile p = a :: t) : p a = false := by
  cases hpa : p a
  · rfl
  · exfalso
    rw [List.dropWhile_cons, if_pos hpa] at h
    have hlen := (List.dropWhile_suffix (l := t) p).length_le
    rw [h] at hlen
    simp at hlen

lemma trimRight_prefix (l : List Char) : trimRight l <+: l := by
  have h : (l.reverse.dropWhile isWS).reverse <+: l.reverse.reverse :=
    List.reverse_prefix.mpr (List.dropWhile_suffix isWS)
  simpa [List.reverse_reverse] using h

lemma trimLeft_trimRight {l : List Char} (h : trimLeft l = l) :
    trimLeft (trimRight l) = trimRight l := by
  cases l with
  | nil => rfl
  | cons a t =>
    have ha : isWS a = false := dropWhile_head_false h
    have hpre := trimRight_prefix (a :: t)
    cases htr : trimRight (a :: t) with
    | nil => rfl
    | cons b u =>
      rw [htr] at hpre
      obtain ⟨k, hk⟩ := hpre
      have hb : b = a := by
        have h2 : b :: (u ++ k) = a :: t := by simpa using hk
        injection h2 with h1 _
      simp [trimLeft, List.dropWhile_cons, hb, ha]

lemma trimRight_trimRight (l : List Char) :
    trimRight (trimRight l) = trimRight l := by
  unfold trimRight
  rw [List.reverse_reverse, dropWhile_dropWhile]

lemma trim_trim (l : List Char) : trim (trim l) = trim l := by
  unfold trim
  rw [trimLeft_trimRight (l := trimLeft l)
      (show trimLeft (trimLeft l) = trimLeft l from dropWhile_dropWhile isWS l),
    trimRight_trimRight]

lemma mem_of_mem_trim {c : Char} {l : List Char} (h : c ∈ trim l) : c ∈ l := by
  unfold trim trimRight trimLeft at h
  rw [List.mem_reverse] at h
  have h2 := (List.dropWhile_suffix isWS).subset h
  rw [List.mem_reverse] at h2
  exact (List.dropWhile_suffix isWS).subset h2

lemma takeWhile_append_of (p : Char → Bool) (xs : List Char) (y : Char)
    (ys : List Char) (hx : ∀ x ∈ xs, p x = true) (hy : p y = false) :
    (xs ++ y :: ys).takeWhile p = xs ∧ (xs ++ y :: ys).dropWhile p = y :: ys := by
  induction xs with
  | nil => simp [List.takeWhile_cons, List.dropWhile_cons, hy]
  | cons x xs ih =>
    have hpx : p x = true := hx x (by simp)
    obtain ⟨ih1, ih2⟩ := ih fun x' hx' => hx x' (by simp [hx'])
    refine ⟨?_, ?_⟩
    · simp [List.takeWhile_cons, hpx, ih1]
    · simp [List.dropWhile_cons, hpx, ih2]

/-- The exact shape of a whole-string markdown link `[label](target)`. -/
def linkShape (label target : List Char) : List Char :=
  '[' :: (label ++ ']' :: '(' :: (target ++ [')']))

lemma linkMatch_some {s label : List Char} (h : linkMatch s = some label) :
    ∃ target, s = linkShape label target ∧ label ≠ [] ∧
      (∀ c ∈ label, c ≠ ']') ∧ ∀ c ∈ target, c ≠ ')' := by
  unfold linkMatch at h
  split at h
  · rename_i rest
    by_cases he : (rest.takeWhile (· != ']')).isEmpty
    · rw [if_pos he] at h
      exact absurd h (by simp)
    · rw [if_neg he] at h
      split at h
      · rename_i rest3 hdrop
        split at h
        · rename_i hdrop2
          have hlab : label = rest.takeWhile (· != ']') := by
            injection h with h1
            exact h1.symm
          refine ⟨rest3.takeWhile (· != ')'), ?_, ?_, ?_, ?_⟩
          · unfold linkShape
            have h1 : rest = label ++ ']' :: '(' :: rest3 := by
              rw [hlab, ← hdrop]
              exact (List.takeWhile_append_dropWhile _ _).symm
            have h2 : rest3 = rest3.takeWhile (· != ')') ++ [')'] := by
              conv_lhs => rw [← List.takeWhile_append_dropWhile (· != ')') rest3]
              rw [hdrop2]
            rw [h1]
            congr 1
            rw [← h2]
          · intro hnil
            rw [hlab] at hnil
            exact he (by simp [hnil])
          · intro c hc
            have := List.mem_takeWhile_imp (hlab ▸ hc)
            simpa using this
          · intro c hc
            have := List.mem_takeWhile_imp hc
            simpa using this
        · exact absurd h (by simp)
      · exact absurd h (by simp)
  · exact absurd h (by simp)

lemma linkMatch_shape (label target : List Char) (hne : label ≠ [])
    (hlab : ∀ c ∈ label, c ≠ ']') (htar : ∀ c ∈ target, c ≠ ')') :
    linkMatch (linkShape label target) = some label := by
  obtain ⟨htake, hdrop⟩ := takeWhile_append_of (· != ']') label ']'
    ('(' :: (target ++ [')'])) (fun x hx => by simpa using hlab x hx) (by simp)
  obtain ⟨-, hdrop2⟩ := takeWhile_append_of (· != ')') target ')' []
    (fun x hx => by simpa using htar x hx) (by simp)
  have hempty : ¬ ((label ++ ']' :: '(' :: (target ++ [')'])).takeWhile
      (· != ']')).isEmpty = true := by
    rw [htake]
    cases label
    · exact absurd rfl hne
    · simp
  show linkMatch ('[' :: (label ++ ']' :: '(' :: (target ++ [')']))) = some label
  simp only [linkMatch]
  rw [if_neg hempty, hdrop]
  simp only [hdrop2, htake]

lemma linkMatch_none_of_no_rbracket {s : List Char} (h : ']' ∉ s) :
    linkMatch s = none := by
  cases hm : linkMatch s with
  | none => rfl
  | some label =>
    obtain ⟨target, hshape, -, -, -⟩ := linkMatch_some hm
    exact absurd (by rw [hshape]; simp [linkShape]) h

/-- C4: `normalizePrompt` returns the trimmed input, except when the
trimmed input is exactly one markdown link `[label](target)` spanning
the whole string, in which case it returns the trimmed label; the
specification's four examples hold, and `"[a](b) extra"` is not
unwrapped. -/
theorem c4_normalizePrompt_contract (s : String) :
    (∀ label target : List Char, label ≠ [] → (∀ c ∈ label, c ≠ ']') →
      (∀ c ∈ target, c ≠ ')') → trim s.data = linkShape label target →
      normalizePrompt s = ⟨trim label⟩)
    ∧ ((¬ ∃ label target : List Char, label ≠ [] ∧ (∀ c ∈ label, c ≠ ']') ∧
        (∀ c ∈ target, c ≠ ')') ∧ trim s.data = linkShape label target) →
      normalizePrompt s = jsTrim s)
    ∧ normalizePrompt "  [Foo Bar](http://x)  " = "Foo Bar"
    ∧ normalizePrompt "plain text" = "plain text"
    ∧ normalizePrompt "" = ""
    ∧ normalizePrompt "[a](b) extra" = "[a](b) extra" := by
  refine ⟨?_, ?_, by decide, by decide, by decide, by decide⟩
  · intro label target hne hlab htar hshape
    unfold normalizePrompt
    rw [hshape, linkMatch_shape label target hne hlab htar]
  · intro hnex
    unfold normalizePrompt
    cases hm : linkMatch (trim s.data) with
    | none => rfl
    | some label =>
      exfalso
      obtain ⟨target, hshape, hne, hlab, htar⟩ := linkMatch_some hm
      exact hnex ⟨label, target, hne, hlab, htar, hshape⟩

/-- Witness for C4 at concrete inputs: a pure link unwraps to its label,
and a plain string is returned trimmed. -/
theorem c4_normalizePrompt_contract_witness :
    normalizePrompt "[ab](cd)" = "ab" ∧ normalizePrompt " zzz " = "zzz" := by
  constructor
  · have h := (c4_normalizePrompt_contract "[ab](cd)").1 ['a', 'b'] ['c', 'd']
      (by decide) (by decide) (by decide) (by decide)
    simpa using h
  · refine ((c4_normalizePrompt_contract " zzz ").2.1 ?_).trans (by decide)
    rintro ⟨label, target, -, -, -, hshape⟩
    have ht : trim " zzz ".data = ['z', 'z', 'z'] := by decide
    rw [ht] at hshape
    unfold linkShape at hshape
    injection hshape with h1 _
    exact absurd h1 (by decide)

/-- C10: the prompt normalizer is idempotent — the output is already
trimmed, and an unwrapped label can never contain `]`, so it can never
match the pure-link pattern again. -/
theorem c10_normalizePrompt_idempotent (s : String) :
    normalizePrompt (normalizePrompt s) = normalizePrompt s := by
  cases hm : linkMatch (trim s.data) with
  | none =>
    have h1 : normalizePrompt s = ⟨trim s.data⟩ := by
      unfold normalizePrompt
      rw [hm]
    rw [h1]
    unfold normalizePrompt
    rw [data_mk, trim_trim, hm]
  | some label =>
    have h1 : normalizePrompt s = ⟨trim label⟩ := by
      unfold normalizePrompt
      rw [hm]
    rw [h1]
    obtain ⟨target, hshape, hne, hlab, htar⟩ := linkMatch_some hm
    have hnot : ']' ∉ trim label := fun hc => hlab ']' (mem_of_mem_trim hc) rfl
    have h2 : linkMatch (trim (trim label)) = none := by
      rw [trim_trim]
      exact linkMatch_none_of_no_rbracket hnot
    unfold normalizePrompt
    rw [data_mk, h2, trim_trim]

/-! Concrete environments and credentials used by witnesses and
counterexamples. -/

/-- An environment whose network always answers 200 with an empty
object and whose JSON parser always fails; commands that issue no
request never consult it. -/
def envC : Env := ⟨fun _ => none, fun _ => .response true 200 "OK" (.ok (.obj []))⟩

/-- A concrete stored credential. -/
def aC : ConfluenceAuth := ⟨"t", "http://h", "e@x"⟩

/-- The unknown-command response text (src/kb.ts line 239). -/
def unknownCmdMsg : String :=
  "❌ Unknown command. Use `/auth`, `/pages`, `/page <id>`, `/update <id> <text>`, or `/create`."

/-- The authentication-gate response text (src/kb.ts line 127). -/
def notAuthMsg : String := "❌ Not authenticated. Run `/auth` first."

/-- C2 (counterexample): for the unknown suffix `/foo` the response is
NOT independent of the authentication state — with no stored credential
the dispatcher answers with the authentication-required message, not the
unknown-command message. -/
theorem c2_unknown_counterexample :
    (dispatch envC none "/foo").outcome = .markdown notAuthMsg
    ∧ (dispatch envC (some aC) "/foo").outcome = .markdown unknownCmdMsg
    ∧ (dispatch envC none "/foo").outcome ≠ (dispatch envC (some aC) "/foo").outcome := by
  refine ⟨rfl, rfl, ?_⟩
  decide

/-- C2 (amended): an unknown suffix yields the literal unknown-command
message whenever a credential is stored (the same response for every
stored credential and environment), and the authentication-required
message when none is stored. -/
theorem c2_unknown_amended (env env' : Env) (a a' : ConfluenceAuth) (rest : String)
    (h1 : jsStartsWith rest "/auth" = false)
    (h2 : jsStartsWith rest "/page" = false)
    (h3 : jsStartsWith rest "/update" = false) :
    dispatch env (some a) rest = ⟨.markdown unknownCmdMsg, some a, []⟩
    ∧ dispatch env none rest = ⟨.markdown notAuthMsg, none, []⟩
    ∧ (dispatch env (some a) rest).outcome = (dispatch env' (some a') rest).outcome := by
  unfold dispatch
  simp [h1, h2, h3, unknownCmdMsg, notAuthMsg]

/-- Witness for C2 (amended) at the concrete suffix `/foo`. -/
theorem c2_unknown_amended_witness :
    dispatch envC (some aC) "/foo" = ⟨.markdown unknownCmdMsg, some aC, []⟩
    ∧ dispatch envC none "/foo" = ⟨.markdown notAuthMsg, none, []⟩ := by
  have h := c2_unknown_amended envC envC aC aC "/foo" (by decide) (by decide) (by decide)
  exact ⟨h.1, h.2.1⟩

/-- C3 (counterexample): with a credential stored, the reserved name
`/pages` does NOT produce the unknown-command response — it is captured
by the `startsWith('/page')` check and yields the `/page` usage error. -/
theorem c3_reserved_counterexample :
    (dispatch envC (some aC) "/pages").outcome = .markdown "❌ Usage: `/page <pageId>`"
    ∧ (dispatch envC (some aC) "/pages").outcome ≠ .markdown unknownCmdMsg := by
  refine ⟨rfl, ?_⟩
  decide

/-- C3 (amended): only suffixes starting with `/auth`, `/page`,
`/update` are dispatched to handlers; with a credential stored,
`/create` produces the unknown-command response, but `/pages` matches
the `/page` prefix check and yields the `/page` usage message; every
suffix matching none of the three prefixes gets the unknown-command
response. -/
theorem c3_reserved_amended (env : Env) (a : ConfluenceAuth) :
    dispatch env (some a) "/create" = ⟨.markdown unknownCmdMsg, some a, []⟩
    ∧ dispatch env (some a) "/pages" = ⟨.markdown "❌ Usage: `/page <pageId>`", some a, []⟩
    ∧ ∀ rest : String, jsStartsWith rest "/auth" = false →
        jsStartsWith rest "/page" = false → jsStartsWith rest "/update" = false →
        dispatch env (some a) rest = ⟨.markdown unknownCmdMsg, some a, []⟩ := by
  refine ⟨rfl, rfl, ?_⟩
  intro rest h1 h2 h3
  unfold dispatch
  simp [h1, h2, h3, unknownCmdMsg]

/-- Witness for C3 (amended) at the concrete suffixes `/create` and
`/foo`. -/
theorem c3_reserved_amended_witness :
    dispatch envC (some aC) "/create" = ⟨.markdown unknownCmdMsg, some aC, []⟩
    ∧ dispatch envC (some aC) "/foo" = ⟨.markdown unknownCmdMsg, some aC, []⟩ := by
  have h := c3_reserved_amended envC aC
  exact ⟨h.1, h.2.2 "/foo" (by decide) (by decide) (by decide)⟩

/-- C6: any command prompt whose suffix does not start with `/auth`,
handled while no credential is stored, gets the authentication-required
message and issues zero HTTP requests. -/
theorem c6_auth_gate (env : Env) (p : String)
    (hc : jsStartsWith (normalizePrompt p) "@kb_agent " = true)
    (h1 : jsStartsWith (jsTrim ⟨(normalizePrompt p).data.drop 10⟩) "/auth" = false) :
    handler env none p = ⟨.markdown notAuthMsg, none, []⟩ := by
  unfold handler
  simp only [hc, if_true]
  unfold dispatch
  simp [h1, notAuthMsg]

/-- Witness for C6: `/page 123` with no stored credential. -/
theorem c6_auth_gate_witness :
    handler envC none "@kb_agent /page 123" = ⟨.markdown notAuthMsg, none, []⟩ :=
  c6_auth_gate envC "@kb_agent /page 123" (by decide) (by decide)

/-- A suffix starting with `/update` starts with neither `/auth` nor
`/page` (the second character differs). -/
lemma jsStartsWith_update_excl {rest : String}
    (h : jsStartsWith rest "/update" = true) :
    jsStartsWith rest "/auth" = false ∧ jsStartsWith rest "/page" = false := by
  have h' : startsWithL rest.data ['/', 'u', 'p', 'd', 'a', 't', 'e'] = true := h
  rcases hd : rest.data with _ | ⟨c1, tail1⟩
  · rw [hd] at h'
    simp [startsWithL] at h'
  · rcases tail1 with _ | ⟨c2, tail2⟩
    · rw [hd] at h'
      simp [startsWithL] at h'
    · rw [hd] at h'
      simp only [startsWithL, Bool.and_eq_true, beq_iff_eq] at h'
      obtain ⟨h1, h2, -⟩ := h'
      constructor
      · show startsWithL rest.data ['/', 'a', 'u', 't', 'h'] = false
        rw [hd, h1, h2]
        simp [startsWithL]
      · show startsWithL rest.data ['/', 'p', 'a', 'g', 'e'] = false
        rw [hd, h1, h2]
        simp [startsWithL]

/-- C5: for every `/update` invocation whose argument parsing and page
fetch succeed, exactly two requests are issued (the GET and the PUT),
and the PUT payload carries the fetched title and space key unchanged,
the fetched body with `<p>text</p>` appended, and the fetched version
number plus exactly one. -/
theorem c5_update_write_payload (env : Env) (a : ConfluenceAuth) (rest : String)
    (i j : Nat) (pageId messageToAppend : String) (json : JsValue)
    (page : PageContent) (getReq putReq : HttpRequest) (st : Nat) (sx : String)
    (hi : rest.data.findIdx? (· == ' ') = some i)
    (hj : (trim (rest.data.drop i)).findIdx? (· == ' ') = some j)
    (hpid : pageId = ⟨trim ((trim (rest.data.drop i)).take j)⟩)
    (hmsg : messageToAppend = ⟨trim ((trim (rest.data.drop i)).drop j)⟩)
    (hget : getReq = buildRequest a
        ("/content/" ++ pageId ++ "?expand=body.storage,version,space") emptyInit)
    (hnet : env.net getReq = .response true st sx (.ok json))
    (hread : readPage json = some page)
    (hput : putReq = buildRequest a ("/content/" ++ pageId)
        ⟨some "PUT", none, some (updatePayload pageId page
          (page.bodyValue ++ "<p>" ++ messageToAppend ++ "</p>"))⟩) :
    (updateBranch env a rest).requests = [getReq, putReq]
    ∧ putReq.method = some "PUT"
    ∧ putReq.body = some (jsonStringify (JsValue.obj
        [("id", .str pageId),
         ("type", .str "page"),
         ("title", .str page.title),
         ("space", .obj [("key", .str page.spaceKey)]),
         ("body", .obj [("storage", .obj
            [("value", .str (page.bodyValue ++ "<p>" ++ messageToAppend ++ "</p>")),
             ("representation", .str "storage")])]),
         ("version", .obj [("number", .num (page.versionNumber + 1))])]))
    ∧ (jsStartsWith rest "/update" = true →
        dispatch env (some a) rest = updateBranch env a rest) := by
  subst hpid hmsg hget hput
  refine ⟨?_, rfl, rfl, ?_⟩
  · unfold updateBranch
    simp only [hi, hj]
    unfold makeConfluenceRequest
    simp only [hnet, if_true, hread]
    cases hres : env.net (buildRequest a
        ("/content/" ++ (⟨trim ((trim (rest.data.drop i)).take j)⟩ : String))
        ⟨some "PUT", none, some (updatePayload ⟨trim ((trim (rest.data.drop i)).take j)⟩
          page (page.bodyValue ++ "<p>" ++ (⟨trim ((trim (rest.data.drop i)).drop j)⟩ : String) ++ "</p>"))⟩) with
    | response ok st2 sx2 jb2 =>
      cases ok with
      | true => cases jb2 <;> simp
      | false => simp
    | networkError m => simp
  · intro hu
    obtain ⟨h1, h2⟩ := jsStartsWith_update_excl hu
    unfold dispatch
    simp [h1, h2, hu]

/-- The page JSON used by the C5 witness: version 3, body `<p>old</p>`. -/
def pageJson5 : JsValue := .obj
  [("id", .str "123"), ("title", .str "T"),
   ("version", .obj [("number", .num 3)]),
   ("space", .obj [("key", .str "SP")]),
   ("body", .obj [("storage", .obj [("value", .str "<p>old</p>")])]),
   ("_links", .obj [("webui", .str "/x")])]

/-- The same page as a record. -/
def page5 : PageContent := ⟨"123", "T", 3, "SP", "<p>old</p>", "/x"⟩

/-- Environment for the C5 witness: the GET returns `pageJson5`, the PUT
succeeds. -/
def env5 : Env := ⟨fun _ => none,
  fun r => if r.method = some "PUT" then .response true 200 "OK" (.ok (.obj []))
           else .response true 200 "OK" (.ok pageJson5)⟩

/-- Credential for the C5 witness. -/
def a5 : ConfluenceAuth := ⟨"t", "http://h", "e@x"⟩

/-- The GET request of the C5 witness. -/
def getReq5 : HttpRequest :=
  buildRequest a5 "/content/123?expand=body.storage,version,space" emptyInit

/-- The PUT request of the C5 witness. -/
def putReq5 : HttpRequest := buildRequest a5 "/content/123"
  ⟨some "PUT", none,
   some (updatePayload "123" page5 ("<p>old</p>" ++ "<p>" ++ "hello world" ++ "</p>"))⟩

/-- Witness for C5: `/update 123 hello world` against a fetched page
with version 3 and body `<p>old</p>` submits version exactly 4 and body
`<p>old</p><p>hello world</p>`. -/
theorem c5_update_write_payload_witness :
    (updateBranch env5 a5 "/update 123 hello world").requests = [getReq5, putReq5]
    ∧ putReq5.body = some (jsonStringify (JsValue.obj
        [("id", .str "123"),
         ("type", .str "page"),
         ("title", .str "T"),
         ("space", .obj [("key", .str "SP")]),
         ("body", .obj [("storage", .obj
            [("value", .str "<p>old</p><p>hello world</p>"),
             ("representation", .str "storage")])]),
         ("version", .obj [("number", .num 4)])])) := by
  have h := c5_update_write_payload env5 a5 "/update 123 hello world" 7 3 "123"
    "hello world" pageJson5 page5 getReq5 putReq5 200 "OK"
    (by decide) (by decide) (by decide) (by decide) rfl rfl rfl rfl
  exact ⟨h.1, h.2.2.1⟩

/-- Environment whose network always answers HTTP 403 Forbidden. -/
def env403 : Env := ⟨fun _ => none, fun _ => .response false 403 "Forbidden" (.ok (.obj []))⟩

/-- Credential for the C8 claim's concrete parts. -/
def a8 : ConfluenceAuth := ⟨"t", "http://h", "e@x"⟩

/-- C8: a non-`ok` response makes the client fail with the numeric
status and status text, for every response body (unparsed); an `ok`
response returns the outcome of parsing the JSON body; and in the
`/page` handler an HTTP 403 becomes an ordinary failure message
containing `403`. -/
theorem c8_remote_error_contract (env : Env) (a : ConfluenceAuth)
    (endpoint : String) (options : RequestInit) (status : Nat)
    (statusText : String) (jb : Except String JsValue) :
    (env.net (buildRequest a endpoint options) = .response false status statusText jb →
      makeConfluenceRequest env (some a) endpoint options =
        (.error ("HTTP " ++ toString status ++ ": " ++ statusText),
         [buildRequest a endpoint options]))
    ∧ (env.net (buildRequest a endpoint options) = .response true status statusText jb →
      makeConfluenceRequest env (some a) endpoint options =
        (jb, [buildRequest a endpoint options]))
    ∧ (pageBranch env403 a8 "/page 123").outcome =
        .markdown "❌ Failed to fetch page: HTTP 403: Forbidden"
    ∧ strContains "❌ Failed to fetch page: HTTP 403: Forbidden" "403" = true := by
  refine ⟨?_, ?_, rfl, by decide⟩
  · intro h
    unfold makeConfluenceRequest
    simp [h]
  · intro h
    unfold makeConfluenceRequest
    simp [h]

/-- Witness for C8: a 403 response to the probe endpoint surfaces as
`HTTP 403: Forbidden`, and a 200 response returns the parsed body. -/
theorem c8_remote_error_contract_witness :
    makeConfluenceRequest env403 (some a8) "/space" emptyInit =
      (.error "HTTP 403: Forbidden", [buildRequest a8 "/space" emptyInit])
    ∧ makeConfluenceRequest envC (some aC) "/space" emptyInit =
      (.ok (.obj []), [buildRequest aC "/space" emptyInit]) := by
  constructor
  · exact (c8_remote_error_contract env403 a8 "/space" emptyInit 403 "Forbidden"
      (.ok (.obj []))).1 rfl
  · exact (c8_remote_error_contract envC aC "/space" emptyInit 200 "OK"
      (.ok (.obj []))).2.1 rfl

/-- C9: when an `/auth` payload parses to an object with three truthy
fields and the probe succeeds, the credential that gets persisted is
built from the `String(...)`-coerced fields with the url's trailing
slash stripped; and stripping removes exactly a final `/`. -/
theorem c9_auth_url_stripped (env : Env) (aPrev : ConfluenceAuth)
    (jsonText : String) (data tokenV urlV emailV : JsValue) (st : Nat)
    (sx : String) (j : JsValue)
    (hparse : env.jsonParse jsonText = some data)
    (htok : jsGetF data "token" = .ok (some tokenV))
    (hurl : jsGetF data "url" = .ok (some urlV))
    (hmail : jsGetF data "email" = .ok (some emailV))
    (ht1 : truthy (some tokenV) = true)
    (ht2 : truthy (some urlV) = true)
    (ht3 : truthy (some emailV) = true)
    (hnet : env.net (buildRequest aPrev "/space" emptyInit) =
      .response true st sx (.ok j)) :
    authBranch env (some aPrev) jsonText =
      ⟨.markdown "✅ **Authenticated!** You can now use `/pages`, `/page`, `/update`, `/create`.",
       some ⟨jsToString tokenV, stripTrailingSlash (jsToString urlV), jsToString emailV⟩,
       [buildRequest aPrev "/space" emptyInit]⟩
    ∧ (∀ u : String, stripTrailingSlash (u ++ "/") = u) := by
  constructor
  · unfold authBranch
    simp only [hparse, htok, hurl, hmail]
    rw [if_neg (by simp [ht1, ht2, ht3])]
    unfold makeConfluenceRequest
    simp only [hnet, if_true]
    rfl
  · intro u
    unfold stripTrailingSlash
    have h1 : (u ++ "/").data = u.data ++ ['/'] := rfl
    rw [h1, List.getLast?_concat, List.dropLast_concat]
    simp

/-- An `/auth` payload whose url carries a trailing slash. -/
def authSlashJson : JsValue :=
  .obj [("token", .str "t"), ("url", .str "http://h/"), ("email", .str "e@x")]

/-- Environment for the C9 witness: the payload text parses to
`authSlashJson` and the probe succeeds. -/
def env9 : Env := ⟨fun _ => some authSlashJson,
                   fun _ => .response true 200 "OK" (.ok (.obj []))⟩

/-- Previously stored credential for the C9 witness. -/
def aPrev9 : ConfluenceAuth := ⟨"oldT", "http://old", "old@x"⟩

/-- Witness for C9: the payload url `"http://h/"` is persisted as
`"http://h"`. -/
theorem c9_auth_url_stripped_witness :
    (authBranch env9 (some aPrev9) "payload").auth = some ⟨"t", "http://h", "e@x"⟩ := by
  have h := (c9_auth_url_stripped env9 aPrev9 "payload" authSlashJson
    (.str "t") (.str "http://h/") (.str "e@x") 200 "OK" (.obj [])
    rfl rfl rfl rfl rfl rfl rfl rfl).1
  rw [h]
  simp [jsToString]
  decide

/-- A well-formed `/auth` payload without a trailing slash. -/
def authPayloadText : String :=
  "\x7b\"token\":\"t\",\"url\":\"http://h\",\"email\":\"e@x\"\x7d"

/-- Its parse result. -/
def authPayloadJson : JsValue :=
  .obj [("token", .str "t"), ("url", .str "http://h"), ("email", .str "e@x")]

/-- Environment for C1: the payload text parses, every request would
succeed with HTTP 200. -/
def envAuth : Env :=
  ⟨fun s => if s = authPayloadText then some authPayloadJson else none,
   fun _ => .response true 200 "OK" (.ok (.obj []))⟩

/-- A previously stored credential, distinct from the candidate. -/
def oldAuth : ConfluenceAuth := ⟨"oldT", "http://old", "old@x"⟩

/-- C1: the probe call is issued through `makeConfluenceRequest`, which
reads the module-level *stored* credential, not the `/auth` candidate.
With no stored credential the probe throws `Not authenticated` before
any HTTP request, so a first-time `/auth` with a valid payload always
fails and persists nothing; with a stale credential stored, the probe
runs against the stale credential's URL and headers, yet on its success
the unverified candidate is persisted. -/
theorem c1_probe_uses_stored_credential :
    handler envAuth none ("@kb_agent /auth " ++ authPayloadText) =
      ⟨.markdown "❌ Auth failed: Not authenticated. Please run @kb_agent /auth first.",
       none, []⟩
    ∧ (handler envAuth (some oldAuth) ("@kb_agent /auth " ++ authPayloadText)).auth =
        some ⟨"t", "http://h", "e@x"⟩
    ∧ (handler envAuth (some oldAuth) ("@kb_agent /auth " ++ authPayloadText)).requests =
        [buildRequest oldAuth "/space" emptyInit] := by
  refine ⟨rfl, ?_, rfl⟩
  have h : (handler envAuth (some oldAuth) ("@kb_agent /auth " ++ authPayloadText)).auth =
      some ⟨jsToString (.str "t"), stripTrailingSlash (jsToString (.str "http://h")),
            jsToString (.str "e@x")⟩ := rfl
  rw [h]
  simp [jsToString]
  decide

/-- Credential for the C7 evaluation. -/
def a7 : ConfluenceAuth := ⟨"t", "http://h", "e@x"⟩

/-- A caller-supplied options object carrying its own headers. -/
def headerOverride : RequestInit := ⟨none, some [("Accept", "text/plain")], none⟩

/-- C7: in `{ headers: {...defaults, ...(options.headers || {})},
...options }` the trailing `...options` spread overwrites the merged
`headers` property whenever the caller supplies headers, so the request
is sent with *only* the caller's headers — the non-conflicting default
`Authorization` header is dropped, unlike the inner merged object the
code builds and then discards. -/
theorem c7_headers_clobbered :
    (buildRequest a7 "/space" headerOverride).headers = [("Accept", "text/plain")]
    ∧ (buildRequest a7 "/space" headerOverride).headers.find?
        (fun kv => kv.1 == "Authorization") = none
    ∧ (objMerge (defaultHeaders a7) [("Accept", "text/plain")]).find?
        (fun kv => kv.1 == "Authorization") =
      some ("Authorization", "Basic " ++ base64Encode (a7.email ++ ":" ++ a7.token))
    ∧ (objMerge (defaultHeaders a7) [("Accept", "text/plain")]).find?
        (fun kv => kv.1 == "Accept") = some ("Accept", "text/plain") := by
  refine ⟨rfl, rfl, rfl, rfl⟩

end KB
